import Mathlib

/-!
# Shallow embedding of the steward attestation CA

This file embeds the request-handling pipeline of `src/main.rs` of the
`steward` repository: an attestation-gated certificate authority.  The
handler `attest` receives a PKCS#10 certificate-signing request, verifies
its self-signature, dispatches the requested extensions to attestation
verifiers, and on success builds and signs a leaf certificate, returning a
two-element PkiPath `[issuer, leaf]`.

Modelling conventions:

* Byte strings (DER encodings, signatures, SubjectPublicKeyInfo) are
  `List Nat`.
* Distinguished names (`RdnSequence`) are modelled by their RFC 4514
  string form; the library round trip `encode_from_string` / `from_der`
  is abstracted to the identity on strings.
* The external DER library and the cryptographic primitives (which live in
  the repository's `crypto` and `ext` modules, not present under `src/`)
  are abstracted into an environment `Env` of deterministic functions:
  certificate/key/CSR decoding, the CSR self-signature check, the SGX and
  SNP verifier bodies, and the issuer-key signing primitive.  The wall
  clock and the generated UUID string are also fields of `Env`, making the
  handler a pure function of its inputs.
* Object identifiers are modelled by an inductive type with one
  constructor per OID constant appearing in the handler; the constants are
  pairwise distinct, as the underlying OIDs are.
* The atomic `usize` serial counter is a `Nat`; its machine width shows up
  as reduction mod `2^64` at the points where the value is read or
  written (`fetch_add` wraps).
-/

namespace Steward

/-- HTTP status codes the `attest` handler can produce as errors
(`src/main.rs` uses `hyper::StatusCode`). -/
inductive StatusCode where
  | badRequest
  | unauthorized
  | internalServerError
deriving DecidableEq, Repr

/-- Object identifiers relevant to the handler: `ID_EXTENSION_REQ`,
the three verifier OIDs (`Kvm::OID`, `Sgx::OID`, `Snp::OID`),
`ID_CE_SUBJECT_ALT_NAME`, and a catch-all for every other OID.  The five
named constants are pairwise distinct object identifiers in the source. -/
inductive OID where
  | extensionReq
  | kvm
  | sgx
  | snp
  | subjectAltName
  | other (arc : List Nat)
deriving DecidableEq, Repr

/-- An X.509 extension (`x509::ext::Extension`): OID, critical flag,
opaque DER value. -/
structure Ext where
  extnId : OID
  critical : Bool
  extnValue : List Nat
deriving DecidableEq, Repr

/-- One value of a CSR attribute (`der::Any`), as seen through
`any.decode_into::<ExtensionReq>()`: either it fails to decode, or it
yields the list of requested extensions. -/
inductive AttrValue where
  | malformed
  | ereq (exts : List Ext)
deriving DecidableEq, Repr

/-- A CSR attribute (`x509::attr::Attribute`): an OID and a set of
values. -/
structure Attribute where
  oid : OID
  values : List AttrValue
deriving DecidableEq, Repr

/-- PKCS#10 `CertReqInfo` version (`x509::request::Version`). -/
inductive ReqVersion where
  | v1
deriving DecidableEq, Repr

/-- PKCS#10 `CertReqInfo`: version, subject, public key (its
SubjectPublicKeyInfo DER bytes), attributes. -/
structure CertReqInfo where
  version : ReqVersion
  subject : String
  publicKey : List Nat
  attributes : List Attribute
deriving DecidableEq, Repr

/-- A parsed PKCS#10 `CertReq`: the `CertReqInfo` plus the self-signature
bytes. -/
structure CertReq where
  info : CertReqInfo
  sig : List Nat
deriving DecidableEq, Repr

/-- X.509 certificate version (`x509::Version`). -/
inductive Version where
  | v1
  | v2
  | v3
deriving DecidableEq, Repr

/-- Certificate validity window; instants are seconds (the handler works
with `SystemTime` and whole-second durations). -/
structure Validity where
  notBefore : Nat
  notAfter : Nat
deriving DecidableEq, Repr

/-- `x509::TbsCertificate`, restricted to the fields the handler reads or
writes.  The signature-algorithm identifier is abstracted to a `Nat`
token. -/
structure TbsCertificate where
  version : Version
  serialNumber : List Nat
  signature : Nat
  issuer : String
  validity : Validity
  subject : String
  subjectPublicKeyInfo : List Nat
  issuerUniqueId : Option (List Nat)
  subjectUniqueId : Option (List Nat)
  extensions : Option (List Ext)
deriving DecidableEq, Repr

/-- An X.509 certificate: the to-be-signed body and the signature bytes.
`tbs.sign(&key)` followed by `Certificate::from_der` is modelled as
attaching the signature produced by the environment to the body (the DER
encode/decode round trip of the library is abstracted). -/
structure Certificate where
  tbs : TbsCertificate
  sig : List Nat
deriving DecidableEq, Repr

/-- Parsed `pkcs8::PrivateKeyInfo`, restricted to what the handler uses:
`signs_with()` yields the signature-algorithm token for this key, or fails
(`None` models the `Err` case, surfaced as 500). -/
structure KeyInfo where
  signsWith : Option Nat
deriving DecidableEq, Repr

/-- The process-wide `State` of `src/main.rs`: issuer key DER bytes,
issuer certificate DER bytes, the atomic serial counter, and the optional
SAN override. -/
structure State where
  key : List Nat
  crt : List Nat
  ord : Nat
  san : Option String
deriving DecidableEq, Repr

/-- One item read from a PEM file by `rustls_pemfile::read_one`
(restricted to the variants `State::load` inspects). -/
inductive PemItem where
  | pkcs8Key (buf : List Nat)
  | x509Certificate (buf : List Nat)
  | otherItem
deriving DecidableEq, Repr

/-- The deterministic environment abstracting the external DER library and
the repository's `crypto`/`ext` modules (absent from `src/`), plus the two
effects of the handler (wall clock, fresh UUID):

* `decodeCert` — `Certificate::from_der`;
* `decodeKey` — `PrivateKeyInfo::from_der`;
* `decodeCsr` — `CertReq::from_der`;
* `verifyCsr` — the self-signature check performed by `cr.verify()`
  (`true` iff the signature verifies; on success the library returns the
  request's own `CertReqInfo`);
* `sgxVerify`, `snpVerify` — the bodies of `Sgx::verify` and
  `Snp::verify`; a result `Except.ok copy` is a successful verification
  returning the copy flag, `Except.error` is a verification failure;
* `sign` — `tbs.sign(&isskey)`: the signature bytes, or a cryptographic
  failure;
* `now` — `SystemTime::now()` in seconds;
* `uuid` — the string form of `uuid::Uuid::new_v4()`. -/
structure Env where
  decodeCert : List Nat → Except Unit Certificate
  decodeKey : List Nat → Except Unit KeyInfo
  decodeCsr : List Nat → Except Unit CertReq
  verifyCsr : CertReq → Bool
  sgxVerify : CertReqInfo → Ext → Bool → Except Unit Bool
  snpVerify : CertReqInfo → Ext → Bool → Except Unit Bool
  sign : TbsCertificate → KeyInfo → Except Unit (List Nat)
  now : Nat
  uuid : String

/-- The expected request MIME type. -/
def PKCS10 : String := "application/pkcs10"

namespace Kvm

/-- `Kvm::OID`. -/
def OID : Steward.OID := .kvm

/-- `Kvm::ATT`.  Modelled from the spec: the `ext` module is not under
`src/`; §4.3 gives `ATT = true` for the KVM verifier. -/
def ATT : Bool := true

/-- `Kvm::verify`.  Modelled from the spec: the `ext` module is not under
`src/`; §4.3 says the KVM verifier accepts any extension value (treated as
opaque) only when debug mode is enabled, fails outside debug mode, and
never asks for the extension to be copied (`copy` is false). -/
def verify (_cri : CertReqInfo) (_e : Ext) (dbg : Bool) : Except Unit Bool :=
  if dbg then .ok false else .error ()

end Kvm

namespace Sgx

/-- `Sgx::OID`. -/
def OID : Steward.OID := .sgx

/-- `Sgx::ATT`.  Modelled from the spec: §4.4 gives `ATT = true`. -/
def ATT : Bool := true

end Sgx

namespace Snp

/-- `Snp::OID`. -/
def OID : Steward.OID := .snp

/-- `Snp::ATT`.  Modelled from the spec: §4.5 gives `ATT = true`. -/
def ATT : Bool := true

end Snp

/-- Debug-mode determination (`src/main.rs` lines 227-230): the issuer is
considered self-signed iff its issuer unique-id equals its subject
unique-id and its issuer DN equals its subject DN.  The source computes
this inside the extension loop; it depends only on the issuer certificate,
so it is hoisted here. -/
def dbgMode (issuer : Certificate) : Bool :=
  issuer.tbs.issuerUniqueId == issuer.tbs.subjectUniqueId
    && issuer.tbs.issuer == issuer.tbs.subject

/-- Dispatch of a single requested extension (`src/main.rs` lines
233-238): the verifier whose OID matches is run and paired with its `ATT`
constant; an unknown OID is `BadRequest`. -/
def extCheck (E : Env) (cri : CertReqInfo) (dbg : Bool) (e : Ext) :
    Except StatusCode (Except Unit Bool × Bool) :=
  if e.extnId = Kvm.OID then .ok (Kvm.verify cri e dbg, Kvm.ATT)
  else if e.extnId = Sgx.OID then .ok (E.sgxVerify cri e dbg, Sgx.ATT)
  else if e.extnId = Snp.OID then .ok (E.snpVerify cri e dbg, Snp.ATT)
  else .error .badRequest

/-- The inner extension loop (`for ext in Vec::from(ereq)`), threading the
`attested` flag and the list of copied extensions.  As in the source,
`attested |= att` happens before the verifier result is unwrapped; a
verifier error aborts with `BadRequest`. -/
def processExts (E : Env) (cri : CertReqInfo) (dbg : Bool) :
    List Ext → Bool → List Ext → Except StatusCode (Bool × List Ext)
  | [], attested, copied => .ok (attested, copied)
  | e :: rest, attested, copied =>
    match extCheck E cri dbg e with
    | .error s => .error s
    | .ok (copy, att) =>
      let attested := attested || att
      match copy with
      | .error _ => .error .badRequest
      | .ok c =>
        processExts E cri dbg rest attested (if c then copied ++ [e] else copied)

/-- The loop over the values of one attribute (`for any in
attr.values.iter()`); a value that does not decode as an `ExtensionReq` is
`BadRequest`. -/
def processValues (E : Env) (cri : CertReqInfo) (dbg : Bool) :
    List AttrValue → Bool → List Ext → Except StatusCode (Bool × List Ext)
  | [], attested, copied => .ok (attested, copied)
  | v :: rest, attested, copied =>
    match v with
    | .malformed => .error .badRequest
    | .ereq exts =>
      match processExts E cri dbg exts attested copied with
      | .error s => .error s
      | .ok (a, c) => processValues E cri dbg rest a c

/-- The outer attribute loop (`for attr in cri.attributes.iter()`): an
attribute whose OID is not `ID_EXTENSION_REQ` is `BadRequest`. -/
def processAttrs (E : Env) (cri : CertReqInfo) (dbg : Bool) :
    List Attribute → Bool → List Ext → Except StatusCode (Bool × List Ext)
  | [], attested, copied => .ok (attested, copied)
  | attr :: rest, attested, copied =>
    if attr.oid ≠ OID.extensionReq then .error .badRequest
    else
      match processValues E cri dbg attr.values attested copied with
      | .error s => .error s
      | .ok (a, c) => processAttrs E cri dbg rest a c

/-- Big-endian bytes of a `usize` value (`usize::to_be_bytes`, 64-bit). -/
def toBeBytes8 (n : Nat) : List Nat :=
  [n / 2 ^ 56 % 256, n / 2 ^ 48 % 256, n / 2 ^ 40 % 256, n / 2 ^ 32 % 256,
   n / 2 ^ 24 % 256, n / 2 ^ 16 % 256, n / 2 ^ 8 % 256, n % 256]

/-- Leading-zero stripping performed by `UIntBytes::new` on its input. -/
def stripLeadingZeroes : List Nat → List Nat
  | 0 :: rest => stripLeadingZeroes rest
  | l => l

/-- The serial-number bytes of the leaf issued from counter value `n`:
`UIntBytes::new(&n.to_be_bytes())`. -/
def serialBytes (n : Nat) : List Nat :=
  stripLeadingZeroes (toBeBytes8 (n % 2 ^ 64))

/-- `Ia5String::new` succeeds exactly on IA5 (7-bit) strings. -/
def ia5Ok (s : String) : Bool :=
  s.toList.all (fun c => c.toNat < 128)

/-- The DER value of the `SubjectAltName` extension built from the
configured SAN; the library encoder is abstracted to the injective byte
image of the DNS name. -/
def sanValue (s : String) : List Nat :=
  s.toList.map Char.toNat

/-- The optional SAN block (`src/main.rs` lines 271-285): no configured
SAN contributes nothing; a configured SAN must be an IA5 string (else
`Ia5String::new` fails, surfaced as 500) and contributes one non-critical
`SubjectAltName` extension. -/
def sanExtsResult : Option String → Except Unit (List Ext)
  | none => .ok []
  | some s =>
    if ia5Ok s then .ok [⟨.subjectAltName, false, sanValue s⟩] else .error ()

/-- The leaf `TbsCertificate` built by the handler (`src/main.rs` lines
288-299) from the issuer certificate, the verified `CertReqInfo`, the
counter value read by `fetch_add`, the copied extensions, the SAN
extensions and the signature algorithm of the issuer key. -/
def leafTbs (E : Env) (issuer : Certificate) (cri : CertReqInfo)
    (ordVal : Nat) (copied sanL : List Ext) (alg : Nat) : TbsCertificate :=
  { version := .v3
    serialNumber := serialBytes ordVal
    signature := alg
    issuer := issuer.tbs.subject
    validity := ⟨E.now, E.now + 60 * 60 * 24⟩
    subject := "CN=" ++ E.uuid ++ ".foo.bar.hub.profian.com"
    subjectPublicKeyInfo := cri.publicKey
    issuerUniqueId := issuer.tbs.subjectUniqueId
    subjectUniqueId := none
    extensions := some (copied ++ sanL) }

/-- The `attest` handler (`src/main.rs` lines 195-307) as a pure function:
given the environment, the request content type, the request body parse
and the shared state, it returns the response (`Except` over status codes,
success carrying the PkiPath as a list of certificates) together with the
state after the request (only `ord` can change, at the `fetch_add`). -/
def attest (E : Env) (ct : String) (body : List Nat) (st : State) :
    Except StatusCode (List Certificate) × State :=
  match E.decodeCert st.crt with
  | .error _ => (.error .internalServerError, st)
  | .ok issuer =>
    match E.decodeKey st.key with
    | .error _ => (.error .internalServerError, st)
    | .ok isskey =>
      if ct ≠ PKCS10 then (.error .badRequest, st)
      else
        match E.decodeCsr body with
        | .error _ => (.error .badRequest, st)
        | .ok cr =>
          if ¬ E.verifyCsr cr then (.error .badRequest, st)
          else
            let cri := cr.info
            let dbg := dbgMode issuer
            match processAttrs E cri dbg cri.attributes false [] with
            | .error s => (.error s, st)
            | .ok res =>
              -- res is the pair (attested, copied extensions).
              if ¬ res.1 then (.error .unauthorized, st)
              else
                -- fetch_add(1, SeqCst): read the old value, wrap-increment.
                let ordVal := st.ord % 2 ^ 64
                let st' : State := { st with ord := (st.ord + 1) % 2 ^ 64 }
                match sanExtsResult st.san with
                | .error _ => (.error .internalServerError, st')
                | .ok sanL =>
                  match isskey.signsWith with
                  | none => (.error .internalServerError, st')
                  | some alg =>
                    let tbs := leafTbs E issuer cri ordVal res.2 sanL alg
                    match E.sign tbs isskey with
                    | .error _ => (.error .internalServerError, st')
                    | .ok sg => (.ok [issuer, ⟨tbs, sg⟩], st')

/-- `State::load` (`src/main.rs` lines 74-99), applied to the PEM items
read from the two files: the key file must yield a PKCS#8 key, the
certificate file an X.509 certificate, and both must pass the syntax
checks `PrivateKeyInfo::from_der` / `Certificate::from_der`; the counter
starts at 1. -/
def State.load (E : Env) (san : Option String)
    (keyItem crtItem : Option PemItem) : Except Unit State :=
  match keyItem with
  | some (.pkcs8Key kbuf) =>
    match crtItem with
    | some (.x509Certificate cbuf) =>
      match E.decodeKey kbuf with
      | .error _ => .error ()
      | .ok _ =>
        match E.decodeCert cbuf with
        | .error _ => .error ()
        | .ok _ => .ok ⟨kbuf, cbuf, 1, san⟩
    | _ => .error ()
  | _ => .error ()

/-- The startup configuration choice of `main` (`src/main.rs` lines
170-174): `(None, None, Some host)` generates an ephemeral issuer,
`(Some key, Some crt, _)` loads from files, everything else panics.
`none` models the panic. -/
inductive ConfigChoice where
  | generate (host : String)
  | load (key crt : String)
deriving DecidableEq, Repr

/-- The `match (args.key, args.crt, args.host)` of `main`, with the
source's arm order. -/
def configState : Option String → Option String → Option String →
    Option ConfigChoice
  | none, none, some host => some (.generate host)
  | some key, some crt, _ => some (.load key crt)
  | _, _, _ => none

/-- The big-endian numeric value of a byte list. -/
def beVal (l : List Nat) : Nat :=
  l.foldl (fun a b => a * 256 + b) 0

/-- An extension OID is known iff it is one of the three registered
verifier OIDs. -/
def knownExtOID (e : Ext) : Prop :=
  e.extnId = Kvm.OID ∨ e.extnId = Sgx.OID ∨ e.extnId = Snp.OID

instance (e : Ext) : Decidable (knownExtOID e) :=
  if h : e.extnId = Kvm.OID ∨ e.extnId = Sgx.OID ∨ e.extnId = Snp.OID then
    .isTrue h
  else .isFalse h

/-- An extension counts as attesting (for a given environment, request
info and debug flag) iff its dispatch succeeds, the verifier call
returns without error, and the dispatched verifier's `ATT` flag is
true. -/
def extAttestedB (E : Env) (cri : CertReqInfo) (dbg : Bool) (e : Ext) : Bool :=
  match extCheck E cri dbg e with
  | .ok (.ok _, true) => true
  | _ => false

/-- Some requested extension of some extension-request attribute
attests. -/
def hasAttested (E : Env) (cri : CertReqInfo) (dbg : Bool)
    (attrs : List Attribute) : Prop :=
  ∃ attr ∈ attrs, ∃ exts, AttrValue.ereq exts ∈ attr.values ∧
    ∃ e ∈ exts, extAttestedB E cri dbg e = true

/-! ## Concrete fixtures

A small concrete environment and request corpus, used to evaluate the
handler on closed inputs. -/

/-- The state after one issuance from `st0`. -/
def st0' : State := ⟨[1, 2], [3, 4], 2, none⟩

/-- A concrete self-signed issuer certificate (issuer DN equals subject
DN, both unique-ids absent), standing for the test issuer. -/
def issuer0 : Certificate :=
  { tbs :=
      { version := .v3
        serialNumber := [1]
        signature := 5
        issuer := "CN=test"
        validity := ⟨0, 1000⟩
        subject := "CN=test"
        subjectPublicKeyInfo := [10, 11]
        issuerUniqueId := none
        subjectUniqueId := none
        extensions := none }
    sig := [9] }

/-- A concrete issuer key whose `signs_with()` succeeds. -/
def key0 : KeyInfo := { signsWith := some 5 }

/-- A CSR with no attributes and a valid self-signature. -/
def crEmpty : CertReq :=
  { info := { version := .v1, subject := "", publicKey := [20, 21], attributes := [] }
    sig := [1] }

/-- A KVM extension request (empty opaque value, as in the repository's
`kvm` test). -/
def kvmExt : Ext := ⟨Kvm.OID, false, []⟩

/-- A CSR with one extension-request attribute holding one KVM extension. -/
def crKvm : CertReq :=
  { info :=
      { version := .v1, subject := "", publicKey := [20, 21]
        attributes := [⟨.extensionReq, [.ereq [kvmExt]]⟩] }
    sig := [1] }

/-- A CSR whose self-signature does not verify. -/
def crBadSig : CertReq :=
  { info := { version := .v1, subject := "", publicKey := [20, 21], attributes := [] }
    sig := [0] }

/-- A CSR with two extension-request attributes, each holding one KVM
extension. -/
def crTwoAttrs : CertReq :=
  { info :=
      { version := .v1, subject := "", publicKey := [20, 21]
        attributes :=
          [⟨.extensionReq, [.ereq [kvmExt]]⟩, ⟨.extensionReq, [.ereq [kvmExt]]⟩] }
    sig := [1] }

/-- A CSR with an attribute whose OID is not `ID_EXTENSION_REQ`. -/
def crBadAttr : CertReq :=
  { info :=
      { version := .v1, subject := "", publicKey := [20, 21]
        attributes := [⟨.other [9], [.ereq [kvmExt]]⟩] }
    sig := [1] }

/-- A CSR requesting an extension with an unregistered OID. -/
def crBadExt : CertReq :=
  { info :=
      { version := .v1, subject := "", publicKey := [20, 21]
        attributes := [⟨.extensionReq, [.ereq [⟨.other [7], false, [3]⟩]]⟩] }
    sig := [1] }

/-- The concrete environment: every DER decode succeeds on the designated
bytes, the self-signature check accepts exactly signature `[1]`, both
hardware verifiers succeed with `copy = true`, signing succeeds.  Request
bodies `[1]`, `[2]`, `[3]`, `[4]`, `[5]`, `[6]` decode to the fixture
CSRs; anything else is a parse error. -/
def E0 : Env :=
  { decodeCert := fun _ => .ok issuer0
    decodeKey := fun _ => .ok key0
    decodeCsr := fun b =>
      if b = [1] then .ok crEmpty
      else if b = [2] then .ok crKvm
      else if b = [3] then .ok crBadSig
      else if b = [4] then .ok crTwoAttrs
      else if b = [5] then .ok crBadAttr
      else if b = [6] then .ok crBadExt
      else .error ()
    verifyCsr := fun cr => cr.sig == [1]
    sgxVerify := fun _ _ _ => .ok true
    snpVerify := fun _ _ _ => .ok true
    sign := fun _ _ => .ok [7]
    now := 1000
    uuid := "11111111-2222-4333-8444-555555555555" }

/-- The environment `E0` with a failing signing primitive, exercising the
post-serial-fetch failure path. -/
def Efail : Env := { E0 with sign := fun _ _ => .error () }

/-- A concrete initial state with counter value 1 and no SAN. -/
def st0 : State := ⟨[1, 2], [3, 4], 1, none⟩

/-- The concrete state with a configured SAN. -/
def stSan : State := ⟨[1, 2], [3, 4], 1, some "example.com"⟩

/-- The leaf certificate issued by `E0` for the KVM CSR from `st0`. -/
def leafKvm : Certificate := ⟨leafTbs E0 issuer0 crKvm.info 1 [] [] 5, [7]⟩

/-- The leaf certificate issued by `E0` for the KVM CSR from `stSan`. -/
def leafSan : Certificate :=
  ⟨leafTbs E0 issuer0 crKvm.info 1 []
    [⟨.subjectAltName, false, sanValue "example.com"⟩] 5, [7]⟩

/-- The leaf certificate issued by `E0` for the two-attribute CSR from
`st0`. -/
def leafTwo : Certificate := ⟨leafTbs E0 issuer0 crTwoAttrs.info 1 [] [] 5, [7]⟩

/-! ## Serial-number lemmas -/

theorem beVal_cons_zero (t : List Nat) : beVal (0 :: t) = beVal t := by
  simp [beVal]

theorem beVal_strip (l : List Nat) :
    beVal (stripLeadingZeroes l) = beVal l := by
  induction l with
  | nil => rfl
  | cons hd t ih =>
    cases hd with
    | zero =>
      rw [show stripLeadingZeroes (0 :: t) = stripLeadingZeroes t from rfl,
        ih, beVal_cons_zero]
    | succ k => rfl

theorem beVal_toBeBytes8 (n : Nat) : beVal (toBeBytes8 n) = n % 2 ^ 64 := by
  simp only [beVal, toBeBytes8, List.foldl]
  omega

theorem beVal_serialBytes (n : Nat) : beVal (serialBytes n) = n % 2 ^ 64 := by
  simp [serialBytes, beVal_strip, beVal_toBeBytes8, Nat.mod_mod_of_dvd]

/-- Distinct counter values (below the `usize` bound) give distinct
serial-number encodings. -/
theorem serialBytes_inj (n m : Nat) (hn : n < 2 ^ 64) (hm : m < 2 ^ 64)
    (hnm : n ≠ m) : serialBytes n ≠ serialBytes m := by
  intro hEq
  apply hnm
  have h1 := beVal_serialBytes n
  have h2 := beVal_serialBytes m
  rw [hEq, h2, Nat.mod_eq_of_lt hm] at h1
  rw [Nat.mod_eq_of_lt hn] at h1
  omega

/-! ## Dispatch lemmas -/

/-- A successful dispatch always carries `ATT = true`: all three
registered verifiers have a true `ATT` constant. -/
theorem extCheck_ok_att {E : Env} {cri : CertReqInfo} {dbg : Bool} {e : Ext}
    {copy : Except Unit Bool} {att : Bool}
    (h : extCheck E cri dbg e = .ok (copy, att)) : att = true := by
  unfold extCheck at h
  split_ifs at h <;> simp_all [Kvm.ATT, Sgx.ATT, Snp.ATT]

/-- Dispatch can only fail with `BadRequest`. -/
theorem extCheck_error_status {E : Env} {cri : CertReqInfo} {dbg : Bool}
    {e : Ext} {s : StatusCode}
    (h : extCheck E cri dbg e = .error s) : s = .badRequest := by
  unfold extCheck at h
  split_ifs at h
  all_goals simp_all

/-- Dispatch fails exactly on the OIDs outside the closed three-entry
registry. -/
theorem extCheck_error_iff {E : Env} {cri : CertReqInfo} {dbg : Bool}
    {e : Ext} :
    (∃ s, extCheck E cri dbg e = .error s) ↔ ¬ knownExtOID e := by
  unfold extCheck knownExtOID
  split_ifs with h1 h2 h3
  all_goals simp_all

/-! ## Extension-loop lemmas -/

theorem processExts_error_status {E : Env} {cri : CertReqInfo} {dbg : Bool} :
    ∀ {exts : List Ext} {a : Bool} {c : List Ext} {s : StatusCode},
      processExts E cri dbg exts a c = .error s → s = .badRequest := by
  intro exts
  induction exts with
  | nil => intro a c s h; simp [processExts] at h
  | cons e rest ih =>
    intro a c s h
    unfold processExts at h
    cases hc : extCheck E cri dbg e with
    | error s2 =>
      rw [hc] at h
      simp at h
      rw [← h]
      exact extCheck_error_status hc
    | ok p =>
      obtain ⟨copy, att⟩ := p
      rw [hc] at h
      cases copy with
      | error u => simp at h; exact h.symm
      | ok cv => simp at h; exact ih h

theorem processValues_error_status {E : Env} {cri : CertReqInfo} {dbg : Bool} :
    ∀ {vs : List AttrValue} {a : Bool} {c : List Ext} {s : StatusCode},
      processValues E cri dbg vs a c = .error s → s = .badRequest := by
  intro vs
  induction vs with
  | nil => intro a c s h; simp [processValues] at h
  | cons v rest ih =>
    intro a c s h
    cases v with
    | malformed => simp [processValues] at h; exact h.symm
    | ereq exts =>
      simp only [processValues] at h
      cases hp : processExts E cri dbg exts a c with
      | error s2 =>
        rw [hp] at h
        simp at h
        rw [← h]
        exact processExts_error_status hp
      | ok p =>
        obtain ⟨a2, c2⟩ := p
        rw [hp] at h
        simp at h
        exact ih h

theorem processAttrs_error_status {E : Env} {cri : CertReqInfo} {dbg : Bool} :
    ∀ {attrs : List Attribute} {a : Bool} {c : List Ext} {s : StatusCode},
      processAttrs E cri dbg attrs a c = .error s → s = .badRequest := by
  intro attrs
  induction attrs with
  | nil => intro a c s h; simp [processAttrs] at h
  | cons attr rest ih =>
    intro a c s h
    unfold processAttrs at h
    by_cases ho : attr.oid = OID.extensionReq
    · simp [ho] at h
      cases hv : processValues E cri dbg attr.values a c with
      | error s2 =>
        rw [hv] at h
        simp at h
        rw [← h]
        exact processValues_error_status hv
      | ok p =>
        obtain ⟨a2, c2⟩ := p
        rw [hv] at h
        simp at h
        exact ih h
    · simp [ho] at h
      exact h.symm

/-- If the extension loop ends with `attested = true`, either it started
true or some processed extension attests. -/
theorem processExts_ok_attested {E : Env} {cri : CertReqInfo} {dbg : Bool} :
    ∀ {exts : List Ext} {a : Bool} {c : List Ext} {a' : Bool} {c' : List Ext},
      processExts E cri dbg exts a c = .ok (a', c') → a' = true →
      a = true ∨ ∃ e ∈ exts, extAttestedB E cri dbg e = true := by
  intro exts
  induction exts with
  | nil =>
    intro a c a' c' h ha
    simp [processExts] at h
    left
    rw [h.1]
    exact ha
  | cons e rest ih =>
    intro a c a' c' h ha
    unfold processExts at h
    cases hc : extCheck E cri dbg e with
    | error s2 => rw [hc] at h; simp at h
    | ok p =>
      obtain ⟨copy, att⟩ := p
      rw [hc] at h
      cases copy with
      | error u => simp at h
      | ok cv =>
        simp at h
        have hatt : att = true := extCheck_ok_att hc
        rcases ih h ha with hr | ⟨e2, he2, hb⟩
        · by_cases haa : a = true
          · left; exact haa
          · right
            refine ⟨e, List.mem_cons_self e rest, ?_⟩
            simp [extAttestedB, hc, hatt]
        · exact Or.inr ⟨e2, List.mem_cons_of_mem e he2, hb⟩

/-- Lifting of `processExts_ok_attested` to the value loop. -/
theorem processValues_ok_attested {E : Env} {cri : CertReqInfo} {dbg : Bool} :
    ∀ {vs : List AttrValue} {a : Bool} {c : List Ext} {a' : Bool} {c' : List Ext},
      processValues E cri dbg vs a c = .ok (a', c') → a' = true →
      a = true ∨ ∃ exts, AttrValue.ereq exts ∈ vs ∧
        ∃ e ∈ exts, extAttestedB E cri dbg e = true := by
  intro vs
  induction vs with
  | nil =>
    intro a c a' c' h ha
    simp [processValues] at h
    left
    rw [h.1]
    exact ha
  | cons v rest ih =>
    intro a c a' c' h ha
    cases v with
    | malformed => simp [processValues] at h
    | ereq exts =>
      simp only [processValues] at h
      cases hp : processExts E cri dbg exts a c with
      | error s2 => rw [hp] at h; simp at h
      | ok p =>
        obtain ⟨a2, c2⟩ := p
        rw [hp] at h
        simp at h
        rcases ih h ha with h2 | ⟨exts2, hv2, hw⟩
        · rcases processExts_ok_attested hp h2 with h3 | ⟨e, he, hb⟩
          · left; exact h3
          · exact Or.inr ⟨exts, List.mem_cons_self _ rest, e, he, hb⟩
        · exact Or.inr ⟨exts2, List.mem_cons_of_mem _ hv2, hw⟩

/-- Lifting of `processExts_ok_attested` to the attribute loop: if the
whole loop ends attested, some requested extension attests. -/
theorem processAttrs_ok_attested {E : Env} {cri : CertReqInfo} {dbg : Bool} :
    ∀ {attrs : List Attribute} {a : Bool} {c : List Ext} {a' : Bool} {c' : List Ext},
      processAttrs E cri dbg attrs a c = .ok (a', c') → a' = true →
      a = true ∨ hasAttested E cri dbg attrs := by
  intro attrs
  induction attrs with
  | nil =>
    intro a c a' c' h ha
    simp [processAttrs] at h
    left
    rw [h.1]
    exact ha
  | cons attr rest ih =>
    intro a c a' c' h ha
    unfold processAttrs at h
    by_cases ho : attr.oid = OID.extensionReq
    · simp [ho] at h
      cases hv : processValues E cri dbg attr.values a c with
      | error s2 => rw [hv] at h; simp at h
      | ok p =>
        obtain ⟨a2, c2⟩ := p
        rw [hv] at h
        simp at h
        rcases ih h ha with h2 | ⟨attr2, hm2, hw⟩
        · rcases processValues_ok_attested hv h2 with h3 | ⟨exts, hvm, hw⟩
          · left; exact h3
          · exact Or.inr ⟨attr, List.mem_cons_self _ rest, exts, hvm, hw⟩
        · exact Or.inr ⟨attr2, List.mem_cons_of_mem _ hm2, hw⟩
    · simp [ho] at h

/-- A completed extension loop only ever saw registered OIDs. -/
theorem processExts_ok_known {E : Env} {cri : CertReqInfo} {dbg : Bool} :
    ∀ {exts : List Ext} {a : Bool} {c : List Ext} {r : Bool × List Ext},
      processExts E cri dbg exts a c = .ok r →
      ∀ e ∈ exts, knownExtOID e := by
  intro exts
  induction exts with
  | nil => intro a c r _ e he; exact absurd he (List.not_mem_nil e)
  | cons e0 rest ih =>
    intro a c r h e he
    unfold processExts at h
    cases hc : extCheck E cri dbg e0 with
    | error s2 => rw [hc] at h; simp at h
    | ok p =>
      obtain ⟨copy, att⟩ := p
      rw [hc] at h
      cases copy with
      | error u => simp at h
      | ok cv =>
        simp at h
        rcases List.mem_cons.mp he with he0 | hrest
        · subst he0
          by_contra hk
          obtain ⟨s, hs⟩ := extCheck_error_iff.mpr hk
          rw [hs] at hc
          exact Except.noConfusion hc
        · exact ih h e hrest

/-- A completed value loop only contained well-formed extension requests
with registered OIDs. -/
theorem processValues_ok_shape {E : Env} {cri : CertReqInfo} {dbg : Bool} :
    ∀ {vs : List AttrValue} {a : Bool} {c : List Ext} {r : Bool × List Ext},
      processValues E cri dbg vs a c = .ok r →
      ∀ v ∈ vs, ∃ exts, v = .ereq exts ∧ ∀ e ∈ exts, knownExtOID e := by
  intro vs
  induction vs with
  | nil => intro a c r _ v hv; exact absurd hv (List.not_mem_nil v)
  | cons v0 rest ih =>
    intro a c r h v hv
    cases v0 with
    | malformed => simp [processValues] at h
    | ereq exts =>
      simp only [processValues] at h
      cases hp : processExts E cri dbg exts a c with
      | error s2 => rw [hp] at h; simp at h
      | ok p =>
        obtain ⟨a2, c2⟩ := p
        rw [hp] at h
        simp at h
        rcases List.mem_cons.mp hv with hv0 | hrest
        · subst hv0
          exact ⟨exts, rfl, processExts_ok_known hp⟩
        · exact ih h v hrest

/-- A completed attribute loop only contained `ID_EXTENSION_REQ`
attributes whose values are well-formed extension requests with
registered OIDs. -/
theorem processAttrs_ok_shape {E : Env} {cri : CertReqInfo} {dbg : Bool} :
    ∀ {attrs : List Attribute} {a : Bool} {c : List Ext} {r : Bool × List Ext},
      processAttrs E cri dbg attrs a c = .ok r →
      ∀ attr ∈ attrs, attr.oid = OID.extensionReq ∧
        ∀ v ∈ attr.values, ∃ exts, v = .ereq exts ∧
          ∀ e ∈ exts, knownExtOID e := by
  intro attrs
  induction attrs with
  | nil => intro a c r _ attr ha; exact absurd ha (List.not_mem_nil attr)
  | cons attr0 rest ih =>
    intro a c r h attr ha
    unfold processAttrs at h
    by_cases ho : attr0.oid = OID.extensionReq
    · simp [ho] at h
      cases hv : processValues E cri dbg attr0.values a c with
      | error s2 => rw [hv] at h; simp at h
      | ok p =>
        obtain ⟨a2, c2⟩ := p
        rw [hv] at h
        simp at h
        rcases List.mem_cons.mp ha with ha0 | hrest
        · subst ha0
          exact ⟨ho, processValues_ok_shape hv⟩
        · exact ih h attr hrest
    · simp [ho] at h

/-- The copied extensions grow by a suffix drawn from the processed
list, in iteration order. -/
theorem processExts_copied_prefix {E : Env} {cri : CertReqInfo} {dbg : Bool} :
    ∀ {exts : List Ext} {a : Bool} {c : List Ext} {a' : Bool} {c' : List Ext},
      processExts E cri dbg exts a c = .ok (a', c') →
      ∃ t, c' = c ++ t ∧ ∀ e ∈ t, e ∈ exts := by
  intro exts
  induction exts with
  | nil =>
    intro a c a' c' h
    simp [processExts] at h
    exact ⟨[], by simp [h.2], by simp⟩
  | cons e rest ih =>
    intro a c a' c' h
    unfold processExts at h
    cases hc : extCheck E cri dbg e with
    | error s2 => rw [hc] at h; simp at h
    | ok p =>
      obtain ⟨copy, att⟩ := p
      rw [hc] at h
      cases copy with
      | error u => simp at h
      | ok cv =>
        simp at h
        obtain ⟨t, ht, hmem⟩ := ih h
        cases cv with
        | true =>
          simp at ht
          refine ⟨e :: t, by simp [ht], ?_⟩
          intro x hx
          rcases List.mem_cons.mp hx with hx0 | hxt
          · subst hx0; exact List.mem_cons_self _ _
          · exact List.mem_cons_of_mem _ (hmem x hxt)
        | false =>
          simp at ht
          exact ⟨t, ht, fun x hx => List.mem_cons_of_mem _ (hmem x hx)⟩

/-- The attribute loop over a concatenation is the sequential composition
of the loops: there is no restriction on the number of extension-request
attributes, and results accumulate left to right. -/
theorem processAttrs_append (E : Env) (cri : CertReqInfo) (dbg : Bool) :
    ∀ (xs ys : List Attribute) (a : Bool) (c : List Ext),
      processAttrs E cri dbg (xs ++ ys) a c =
        match processAttrs E cri dbg xs a c with
        | .error s => .error s
        | .ok p => processAttrs E cri dbg ys p.1 p.2 := by
  intro xs
  induction xs with
  | nil => intro ys a c; simp [processAttrs]
  | cons x rest ih =>
    intro ys a c
    by_cases ho : x.oid = OID.extensionReq
    · simp only [List.cons_append, processAttrs, ho]
      simp only [ne_eq, not_true_eq_false, if_false]
      cases hv : processValues E cri dbg x.values a c with
      | error s => simp
      | ok p => simpa using ih ys p.1 p.2
    · simp [processAttrs, ho]

/-! ## Handler-level lemmas -/

/-- Inversion of a successful issuance: every stage of the pipeline
succeeded, and the returned path and state have the stated shape. -/
theorem attest_ok_inv {E : Env} {ct : String} {body : List Nat} {st : State}
    {path : List Certificate} {st' : State}
    (h : attest E ct body st = (.ok path, st')) :
    ∃ issuer isskey cr copied sanL alg sg,
      E.decodeCert st.crt = .ok issuer ∧
      E.decodeKey st.key = .ok isskey ∧
      ct = PKCS10 ∧
      E.decodeCsr body = .ok cr ∧
      E.verifyCsr cr = true ∧
      processAttrs E cr.info (dbgMode issuer) cr.info.attributes false [] =
        .ok (true, copied) ∧
      sanExtsResult st.san = .ok sanL ∧
      isskey.signsWith = some alg ∧
      E.sign (leafTbs E issuer cr.info (st.ord % 2 ^ 64) copied sanL alg) isskey
        = .ok sg ∧
      path = [issuer,
        ⟨leafTbs E issuer cr.info (st.ord % 2 ^ 64) copied sanL alg, sg⟩] ∧
      st' = { st with ord := (st.ord + 1) % 2 ^ 64 } := by
  unfold attest at h
  dsimp only at h
  repeat' split at h
  all_goals try (exfalso; simp at h; done)
  rename_i x6 issuer h1 x5 isskey h2 hct x4 cr h4 hver x3 res h6 hif x2 sanL h7
    x1 alg h8 x0 sg h9
  have hct' : ct = PKCS10 := not_not.mp hct
  have hres : (true, res.2) = res := by
    rw [← not_not.mp hif]
  simp only [Prod.mk.injEq, Except.ok.injEq] at h
  refine ⟨issuer, isskey, cr, res.2, sanL, alg, sg, h1, h2, hct', h4,
    not_not.mp hver, ?_, h7, h8, h9, h.1.symm, h.2.symm⟩
  rw [hres]
  exact h6

/-- Each request either leaves the state untouched or performs exactly one
wrap-increment of the serial counter. -/
theorem attest_ord_dichotomy (E : Env) (ct : String) (body : List Nat)
    (st : State) :
    (attest E ct body st).2 = st ∨
    (attest E ct body st).2 = { st with ord := (st.ord + 1) % 2 ^ 64 } := by
  unfold attest
  dsimp only
  repeat' split
  all_goals simp

/-- A request that reaches the serial fetch consumes the serial, whatever
happens afterwards. -/
theorem attest_reached_consumes (E : Env) (ct : String) (body : List Nat)
    (st : State) (issuer : Certificate) (isskey : KeyInfo) (cr : CertReq)
    (copied : List Ext)
    (h1 : E.decodeCert st.crt = .ok issuer)
    (h2 : E.decodeKey st.key = .ok isskey)
    (h3 : ct = PKCS10)
    (h4 : E.decodeCsr body = .ok cr)
    (h5 : E.verifyCsr cr = true)
    (h6 : processAttrs E cr.info (dbgMode issuer) cr.info.attributes false []
        = .ok (true, copied)) :
    (attest E ct body st).2 = { st with ord := (st.ord + 1) % 2 ^ 64 } := by
  unfold attest
  rw [h1, h2]
  dsimp only
  simp only [h3, ne_eq, not_true_eq_false, if_false, h4, h5, h6, not_true]
  repeat' split
  all_goals simp

/-! ## Claim theorems -/

/-- C2: for every successful (200) response of the issue operation, the
issued leaf certificate's subject_public_key_info is byte-for-byte equal
to the public_key field of the submitted CSR's CertReqInfo. -/
theorem c2_subject_key_verbatim (E : Env) (ct : String) (body : List Nat)
    (st : State) (path : List Certificate) (st' : State)
    (h : attest E ct body st = (.ok path, st')) :
    ∃ cr issuer leaf, E.decodeCsr body = .ok cr ∧ path = [issuer, leaf] ∧
      leaf.tbs.subjectPublicKeyInfo = cr.info.publicKey := by
  obtain ⟨issuer, isskey, cr, copied, sanL, alg, sg, h1, h2, h3, h4, h5, h6,
    h7, h8, h9, hpath, hst⟩ := attest_ok_inv h
  exact ⟨cr, issuer, _, h4, hpath, rfl⟩

/-- Witness for C2 at a concrete successful issuance. -/
theorem c2_subject_key_verbatim_witness :
    ∃ cr issuer leaf, E0.decodeCsr [2] = .ok cr ∧
      ([issuer0, leafKvm] : List Certificate) = [issuer, leaf] ∧
      leaf.tbs.subjectPublicKeyInfo = cr.info.publicKey :=
  c2_subject_key_verbatim E0 PKCS10 [2] st0 [issuer0, leafKvm] st0' rfl

/-- C4: for every successful (200) response, the body is a PkiPath of
length exactly 2, ordered issuer first, where the first element is the
configured issuer certificate (the decode of `state.crt`). -/
theorem c4_pkipath_shape (E : Env) (ct : String) (body : List Nat)
    (st : State) (path : List Certificate) (st' : State)
    (h : attest E ct body st = (.ok path, st')) :
    path.length = 2 ∧ ∃ issuer leaf, path = [issuer, leaf] ∧
      E.decodeCert st.crt = .ok issuer := by
  obtain ⟨issuer, isskey, cr, copied, sanL, alg, sg, h1, h2, h3, h4, h5, h6,
    h7, h8, h9, hpath, hst⟩ := attest_ok_inv h
  subst hpath
  exact ⟨rfl, issuer, _, rfl, h1⟩

/-- Witness for C4 at a concrete successful issuance. -/
theorem c4_pkipath_shape_witness :
    ([issuer0, leafKvm] : List Certificate).length = 2 ∧
    ∃ issuer leaf, ([issuer0, leafKvm] : List Certificate) = [issuer, leaf] ∧
      E0.decodeCert st0.crt = .ok issuer :=
  c4_pkipath_shape E0 PKCS10 [2] st0 [issuer0, leafKvm] st0' rfl

/-- C5: the debug-mode flag is true exactly when the issuer certificate is
self-signed in the sense of the source: issuer DN equals subject DN and
issuer unique-id equals subject unique-id. -/
theorem c5_debug_mode_iff (issuer : Certificate) :
    dbgMode issuer = true ↔
      (issuer.tbs.issuer = issuer.tbs.subject ∧
        issuer.tbs.issuerUniqueId = issuer.tbs.subjectUniqueId) := by
  simp [dbgMode, and_comm]

/-- Witness for C5 at the concrete self-signed issuer. -/
theorem c5_debug_mode_iff_witness : dbgMode issuer0 = true :=
  (c5_debug_mode_iff issuer0).mpr ⟨rfl, rfl⟩

/-- C6: startup succeeds exactly when either both key and crt are set, or
host is set with key and crt unset; every other combination fails. -/
theorem c6_startup_config (k c h : Option String) :
    (configState k c h).isSome = true ↔
      ((k.isSome = true ∧ c.isSome = true) ∨
        (k = none ∧ c = none ∧ h.isSome = true)) := by
  cases k <;> cases c <;> cases h <;> simp [configState]

/-- Witness for C6: the two legal configurations and one illegal one. -/
theorem c6_startup_config_witness :
    (configState (some "key.pem") (some "crt.pem") none).isSome = true ∧
    (configState none none (some "example.com")).isSome = true ∧
    (configState none none none).isSome = false :=
  ⟨(c6_startup_config (some "key.pem") (some "crt.pem") none).mpr
      (Or.inl ⟨rfl, rfl⟩),
    (c6_startup_config none none (some "example.com")).mpr
      (Or.inr ⟨rfl, rfl, rfl⟩),
    rfl⟩

/-- C7: a parsed CSR whose self-signature does not verify is rejected with
400 Bad Request, before extension processing, without issuing a
certificate and without consuming a serial (the state is unchanged). -/
theorem c7_csr_signature_check (E : Env) (ct : String) (body : List Nat)
    (st : State) (issuer : Certificate) (isskey : KeyInfo) (cr : CertReq)
    (h1 : E.decodeCert st.crt = .ok issuer)
    (h2 : E.decodeKey st.key = .ok isskey)
    (h3 : ct = PKCS10)
    (h4 : E.decodeCsr body = .ok cr)
    (h5 : E.verifyCsr cr = false) :
    attest E ct body st = (.error .badRequest, st) := by
  unfold attest
  rw [h1, h2]
  dsimp only
  simp [h3, h4, h5]

/-- Witness for C7 at the concrete tampered-signature CSR. -/
theorem c7_csr_signature_check_witness :
    attest E0 PKCS10 [3] st0 = (.error .badRequest, st0) :=
  c7_csr_signature_check E0 PKCS10 [3] st0 issuer0 key0 crBadSig
    rfl rfl rfl rfl rfl

/-- C1: for every POST request whose body is a valid CSR with a verified
self-signature, issuance returns 401 Unauthorized when no extension's
verifier contributed attested = true (in particular when the CSR carries
no extension-request attribute), and every 200 success implies at least
one extension was dispatched to a verifier with a true ATT flag whose
verify call succeeded. -/
theorem c1_attestation_gate :
    (∀ (E : Env) (ct : String) (body : List Nat) (st : State)
        (issuer : Certificate) (isskey : KeyInfo) (cr : CertReq),
      E.decodeCert st.crt = .ok issuer →
      E.decodeKey st.key = .ok isskey →
      ct = PKCS10 →
      E.decodeCsr body = .ok cr →
      E.verifyCsr cr = true →
      cr.info.attributes = [] →
      (attest E ct body st).1 = .error .unauthorized) ∧
    (∀ (E : Env) (ct : String) (body : List Nat) (st : State)
        (issuer : Certificate) (isskey : KeyInfo) (cr : CertReq)
        (copied : List Ext),
      E.decodeCert st.crt = .ok issuer →
      E.decodeKey st.key = .ok isskey →
      ct = PKCS10 →
      E.decodeCsr body = .ok cr →
      E.verifyCsr cr = true →
      processAttrs E cr.info (dbgMode issuer) cr.info.attributes false []
        = .ok (false, copied) →
      (attest E ct body st).1 = .error .unauthorized) ∧
    (∀ (E : Env) (ct : String) (body : List Nat) (st : State)
        (path : List Certificate) (st' : State),
      attest E ct body st = (.ok path, st') →
      ∃ issuer cr, E.decodeCert st.crt = .ok issuer ∧
        E.decodeCsr body = .ok cr ∧
        hasAttested E cr.info (dbgMode issuer) cr.info.attributes) := by
  refine ⟨?_, ?_, ?_⟩
  · intro E ct body st issuer isskey cr h1 h2 h3 h4 h5 hattrs
    unfold attest
    rw [h1, h2]
    dsimp only
    simp [h3, h4, h5, hattrs, processAttrs]
  · intro E ct body st issuer isskey cr copied h1 h2 h3 h4 h5 h6
    unfold attest
    rw [h1, h2]
    dsimp only
    simp [h3, h4, h5, h6]
  · intro E ct body st path st' h
    obtain ⟨issuer, isskey, cr, copied, sanL, alg, sg, h1, h2, h3, h4, h5, h6,
      h7, h8, h9, hpath, hst⟩ := attest_ok_inv h
    rcases processAttrs_ok_attested h6 rfl with hfalse | hat
    · exact absurd hfalse (by simp)
    · exact ⟨issuer, cr, h1, h4, hat⟩

/-- Witness for C1: the attribute-free CSR yields 401, and a concrete
success exhibits an attesting extension. -/
theorem c1_attestation_gate_witness :
    (attest E0 PKCS10 [1] st0).1 = .error .unauthorized ∧
    (∃ issuer cr, E0.decodeCert st0.crt = .ok issuer ∧
      E0.decodeCsr [2] = .ok cr ∧
      hasAttested E0 cr.info (dbgMode issuer) cr.info.attributes) :=
  ⟨c1_attestation_gate.1 E0 PKCS10 [1] st0 issuer0 key0 crEmpty
      rfl rfl rfl rfl rfl rfl,
    c1_attestation_gate.2.2 E0 PKCS10 [2] st0 [issuer0, leafKvm] st0' rfl⟩

/-- C3: the serial counter starts at 1 (`State::load`); each request
performs at most one wrap-increment, exactly one when it reaches the
serial fetch — even if it fails afterwards — and exactly one on success;
counter values strictly increase below the usize bound; the issued leaf's
serial is the counter value's big-endian encoding, injective below
`2 ^ 64`, so no two issued leaves share a serial. -/
theorem c3_serial_counter :
    (∀ (E : Env) (san : Option String) (ki ci : Option PemItem) (st1 : State),
      State.load E san ki ci = .ok st1 → st1.ord = 1) ∧
    (∀ (E : Env) (ct : String) (body : List Nat) (st : State),
      (attest E ct body st).2 = st ∨
      (attest E ct body st).2 = { st with ord := (st.ord + 1) % 2 ^ 64 }) ∧
    (∀ (E : Env) (ct : String) (body : List Nat) (st : State)
        (path : List Certificate) (st' : State),
      attest E ct body st = (.ok path, st') →
      st'.ord = (st.ord + 1) % 2 ^ 64) ∧
    (∀ (E : Env) (ct : String) (body : List Nat) (st : State)
        (path : List Certificate) (st' : State),
      attest E ct body st = (.ok path, st') → st.ord + 1 < 2 ^ 64 →
      st.ord < st'.ord) ∧
    (∀ (E : Env) (ct : String) (body : List Nat) (st : State)
        (path : List Certificate) (st' : State) (issuer leaf : Certificate),
      attest E ct body st = (.ok path, st') → path = [issuer, leaf] →
      leaf.tbs.serialNumber = serialBytes (st.ord % 2 ^ 64)) ∧
    (∀ n m : Nat, n < 2 ^ 64 → m < 2 ^ 64 → n ≠ m →
      serialBytes n ≠ serialBytes m) ∧
    (∀ (E : Env) (ct : String) (body : List Nat) (st : State)
        (issuer : Certificate) (isskey : KeyInfo) (cr : CertReq)
        (copied : List Ext),
      E.decodeCert st.crt = .ok issuer →
      E.decodeKey st.key = .ok isskey →
      ct = PKCS10 →
      E.decodeCsr body = .ok cr →
      E.verifyCsr cr = true →
      processAttrs E cr.info (dbgMode issuer) cr.info.attributes false []
        = .ok (true, copied) →
      (attest E ct body st).2 = { st with ord := (st.ord + 1) % 2 ^ 64 }) := by
  refine ⟨?_, ?_, ?_, ?_, ?_, ?_, ?_⟩
  · intro E san ki ci st1 h
    unfold State.load at h
    repeat' split at h
    all_goals try (exfalso; simp at h; done)
    have hx := Except.ok.inj h
    rw [← hx]
  · intro E ct body st
    exact attest_ord_dichotomy E ct body st
  · intro E ct body st path st' h
    obtain ⟨issuer, isskey, cr, copied, sanL, alg, sg, _, _, _, _, _, _, _, _,
      _, _, hst⟩ := attest_ok_inv h
    rw [hst]
  · intro E ct body st path st' h hlt
    obtain ⟨issuer, isskey, cr, copied, sanL, alg, sg, _, _, _, _, _, _, _, _,
      _, _, hst⟩ := attest_ok_inv h
    subst hst
    show st.ord < (st.ord + 1) % 2 ^ 64
    rw [Nat.mod_eq_of_lt hlt]
    omega
  · intro E ct body st path st' issuer leaf h hpl
    obtain ⟨issuer2, isskey, cr, copied, sanL, alg, sg, _, _, _, _, _, _, _, _,
      _, hpath, _⟩ := attest_ok_inv h
    rw [hpl] at hpath
    simp at hpath
    rw [hpath.2]
    rfl
  · exact serialBytes_inj
  · intro E ct body st issuer isskey cr copied h1 h2 h3 h4 h5 h6
    exact attest_reached_consumes E ct body st issuer isskey cr copied
      h1 h2 h3 h4 h5 h6

/-- Witness for C3: a concrete load starts at 1; a concrete issuance
increments the counter once and strictly; a concrete post-fetch signing
failure still consumes the serial; distinct counter values give distinct
serials. -/
theorem c3_serial_counter_witness :
    ((⟨[1], [2], 1, none⟩ : State).ord = 1) ∧
    ((attest E0 PKCS10 [2] st0).2 = st0 ∨
      (attest E0 PKCS10 [2] st0).2 = { st0 with ord := (st0.ord + 1) % 2 ^ 64 }) ∧
    (st0'.ord = (st0.ord + 1) % 2 ^ 64) ∧
    (st0.ord < st0'.ord) ∧
    (leafKvm.tbs.serialNumber = serialBytes (st0.ord % 2 ^ 64)) ∧
    (serialBytes 1 ≠ serialBytes 2) ∧
    ((attest Efail PKCS10 [2] st0).2 = { st0 with ord := (st0.ord + 1) % 2 ^ 64 }) :=
  ⟨c3_serial_counter.1 E0 none (some (.pkcs8Key [1]))
      (some (.x509Certificate [2])) ⟨[1], [2], 1, none⟩ rfl,
    c3_serial_counter.2.1 E0 PKCS10 [2] st0,
    c3_serial_counter.2.2.1 E0 PKCS10 [2] st0 [issuer0, leafKvm] st0' rfl,
    c3_serial_counter.2.2.2.1 E0 PKCS10 [2] st0 [issuer0, leafKvm] st0' rfl
      (by decide),
    c3_serial_counter.2.2.2.2.1 E0 PKCS10 [2] st0 [issuer0, leafKvm] st0'
      issuer0 leafKvm rfl rfl,
    c3_serial_counter.2.2.2.2.2.1 1 2 (by decide) (by decide) (by decide),
    c3_serial_counter.2.2.2.2.2.2 Efail PKCS10 [2] st0 issuer0 key0 crKvm []
      rfl rfl rfl rfl rfl rfl⟩

/-- C8: a CSR reaching extension processing is rejected with 400 if any
attribute's OID differs from id-extensionRequest, or if any requested
extension's OID is outside the closed three-entry registry (Kvm, Sgx,
Snp); dispatch fails exactly outside the registry, and only with
BadRequest. -/
theorem c8_closed_registry :
    (∀ (E : Env) (ct : String) (body : List Nat) (st : State)
        (issuer : Certificate) (isskey : KeyInfo) (cr : CertReq),
      E.decodeCert st.crt = .ok issuer →
      E.decodeKey st.key = .ok isskey →
      ct = PKCS10 →
      E.decodeCsr body = .ok cr →
      E.verifyCsr cr = true →
      (∃ attr ∈ cr.info.attributes, attr.oid ≠ OID.extensionReq ∨
        ∃ exts, AttrValue.ereq exts ∈ attr.values ∧
          ∃ e ∈ exts, ¬ knownExtOID e) →
      (attest E ct body st).1 = .error .badRequest) ∧
    (∀ (E : Env) (cri : CertReqInfo) (dbg : Bool) (e : Ext),
      (∃ s, extCheck E cri dbg e = .error s) ↔ ¬ knownExtOID e) ∧
    (∀ (E : Env) (cri : CertReqInfo) (dbg : Bool) (e : Ext) (s : StatusCode),
      extCheck E cri dbg e = .error s → s = .badRequest) := by
  refine ⟨?_, ?_, ?_⟩
  · intro E ct body st issuer isskey cr h1 h2 h3 h4 h5 hbad
    unfold attest
    rw [h1, h2]
    dsimp only
    simp only [h3, ne_eq, not_true_eq_false, if_false, h4, h5, not_true]
    cases hp : processAttrs E cr.info (dbgMode issuer) cr.info.attributes
        false [] with
    | error s =>
      have hs := processAttrs_error_status hp
      subst hs
      simp
    | ok r =>
      exfalso
      obtain ⟨attr, hmem, hcase⟩ := hbad
      have hshape := processAttrs_ok_shape hp attr hmem
      rcases hcase with hoid | ⟨exts, hvm, e, hem, hk⟩
      · exact hoid hshape.1
      · obtain ⟨exts2, heq2, hknown⟩ := hshape.2 _ hvm
        injection heq2 with hh
        subst hh
        exact hk (hknown e hem)
  · intro E cri dbg e
    exact extCheck_error_iff
  · intro E cri dbg e s h
    exact extCheck_error_status h

/-- Witness for C8: a CSR with a non-extensionRequest attribute and one
with an unregistered extension OID are both rejected with 400; dispatch
on the unregistered OID fails. -/
theorem c8_closed_registry_witness :
    (attest E0 PKCS10 [5] st0).1 = .error .badRequest ∧
    (attest E0 PKCS10 [6] st0).1 = .error .badRequest ∧
    ((∃ s, extCheck E0 crKvm.info true ⟨OID.other [7], false, [3]⟩ = .error s)
      ↔ ¬ knownExtOID ⟨OID.other [7], false, [3]⟩) :=
  ⟨c8_closed_registry.1 E0 PKCS10 [5] st0 issuer0 key0 crBadAttr
      rfl rfl rfl rfl rfl
      ⟨⟨OID.other [9], [AttrValue.ereq [kvmExt]]⟩, by decide, Or.inl (by decide)⟩,
    c8_closed_registry.1 E0 PKCS10 [6] st0 issuer0 key0 crBadExt
      rfl rfl rfl rfl rfl
      ⟨⟨OID.extensionReq, [AttrValue.ereq [⟨OID.other [7], false, [3]⟩]]⟩,
        by decide,
        Or.inr ⟨[⟨OID.other [7], false, [3]⟩], by decide,
          ⟨OID.other [7], false, [3]⟩, by decide, by decide⟩⟩,
    c8_closed_registry.2.1 E0 crKvm.info true ⟨OID.other [7], false, [3]⟩⟩

/-- C9: every issued leaf is an X.509 v3 certificate whose validity spans
exactly 24 hours from the current wall clock, whose issuer DN is the
issuer certificate's subject, whose subject DN is
CN=<uuid>.foo.bar.hub.profian.com, and whose extensions are exactly the
verifier-copied extensions plus, when a SAN is configured, one
non-critical SubjectAltName appended at the end. -/
theorem c9_leaf_shape (E : Env) (ct : String) (body : List Nat) (st : State)
    (path : List Certificate) (st' : State)
    (h : attest E ct body st = (.ok path, st')) :
    ∃ issuer cr copied sanL leaf,
      E.decodeCert st.crt = .ok issuer ∧
      E.decodeCsr body = .ok cr ∧
      processAttrs E cr.info (dbgMode issuer) cr.info.attributes false []
        = .ok (true, copied) ∧
      sanExtsResult st.san = .ok sanL ∧
      path = [issuer, leaf] ∧
      leaf.tbs.version = .v3 ∧
      leaf.tbs.validity = ⟨E.now, E.now + 60 * 60 * 24⟩ ∧
      leaf.tbs.issuer = issuer.tbs.subject ∧
      leaf.tbs.subject = "CN=" ++ E.uuid ++ ".foo.bar.hub.profian.com" ∧
      leaf.tbs.extensions = some (copied ++ sanL) ∧
      (st.san = none → sanL = []) ∧
      (∀ s, st.san = some s →
        sanL = [⟨OID.subjectAltName, false, sanValue s⟩]) := by
  obtain ⟨issuer, isskey, cr, copied, sanL, alg, sg, h1, h2, h3, h4, h5, h6,
    h7, h8, h9, hpath, hst⟩ := attest_ok_inv h
  refine ⟨issuer, cr, copied, sanL, _, h1, h4, h6, h7, hpath, rfl, rfl, rfl,
    rfl, rfl, ?_, ?_⟩
  · intro hnone
    rw [hnone] at h7
    simp [sanExtsResult] at h7
    exact h7
  · intro s hs
    rw [hs] at h7
    by_cases hi : ia5Ok s
    · simp [sanExtsResult, hi] at h7
      exact h7.symm
    · simp [sanExtsResult, hi] at h7

/-- Witness for C9 at a concrete successful issuance with a configured
SAN. -/
theorem c9_leaf_shape_witness :
    ∃ issuer cr copied sanL leaf,
      E0.decodeCert stSan.crt = .ok issuer ∧
      E0.decodeCsr [2] = .ok cr ∧
      processAttrs E0 cr.info (dbgMode issuer) cr.info.attributes false []
        = .ok (true, copied) ∧
      sanExtsResult stSan.san = .ok sanL ∧
      ([issuer0, leafSan] : List Certificate) = [issuer, leaf] ∧
      leaf.tbs.version = .v3 ∧
      leaf.tbs.validity = ⟨E0.now, E0.now + 60 * 60 * 24⟩ ∧
      leaf.tbs.issuer = issuer.tbs.subject ∧
      leaf.tbs.subject = "CN=" ++ E0.uuid ++ ".foo.bar.hub.profian.com" ∧
      leaf.tbs.extensions = some (copied ++ sanL) ∧
      (stSan.san = none → sanL = []) ∧
      (∀ s, stSan.san = some s →
        sanL = [⟨OID.subjectAltName, false, sanValue s⟩]) :=
  c9_leaf_shape E0 PKCS10 [2] stSan [issuer0, leafSan]
    ⟨[1, 2], [3, 4], 2, some "example.com"⟩ rfl

/-- C10: the issue operation does not restrict the number of
extension-request attributes — the attribute loop over a concatenation is
the sequential composition of the loops, and copied extensions accumulate
in iteration order — and every issued leaf copies its issuer unique-id
from the issuer certificate's subject unique-id while its own subject
unique-id is always absent. -/
theorem c10_multi_attr_accumulation :
    (∀ (E : Env) (cri : CertReqInfo) (dbg : Bool) (xs ys : List Attribute)
        (a : Bool) (c : List Ext),
      processAttrs E cri dbg (xs ++ ys) a c =
        match processAttrs E cri dbg xs a c with
        | .error s => .error s
        | .ok p => processAttrs E cri dbg ys p.1 p.2) ∧
    (∀ (E : Env) (cri : CertReqInfo) (dbg : Bool) (exts : List Ext)
        (a : Bool) (c : List Ext) (a' : Bool) (c' : List Ext),
      processExts E cri dbg exts a c = .ok (a', c') →
      ∃ t, c' = c ++ t ∧ ∀ e ∈ t, e ∈ exts) ∧
    (∀ (E : Env) (ct : String) (body : List Nat) (st : State)
        (path : List Certificate) (st' : State),
      attest E ct body st = (.ok path, st') →
      ∃ issuer leaf, E.decodeCert st.crt = .ok issuer ∧ path = [issuer, leaf] ∧
        leaf.tbs.issuerUniqueId = issuer.tbs.subjectUniqueId ∧
        leaf.tbs.subjectUniqueId = none) := by
  refine ⟨?_, ?_, ?_⟩
  · intro E cri dbg xs ys a c
    exact processAttrs_append E cri dbg xs ys a c
  · intro E cri dbg exts a c a' c' h
    exact processExts_copied_prefix h
  · intro E ct body st path st' h
    obtain ⟨issuer, isskey, cr, copied, sanL, alg, sg, h1, h2, h3, h4, h5, h6,
      h7, h8, h9, hpath, hst⟩ := attest_ok_inv h
    exact ⟨issuer, _, h1, hpath, rfl, rfl⟩

/-- Witness for C10: a concrete sequential-composition instance and a
concrete two-attribute success carrying the issuer's unique-id fields. -/
theorem c10_multi_attr_accumulation_witness :
    (processAttrs E0 crKvm.info true
        (crKvm.info.attributes ++ crKvm.info.attributes) false [] =
      match processAttrs E0 crKvm.info true crKvm.info.attributes false [] with
      | .error s => .error s
      | .ok p => processAttrs E0 crKvm.info true crKvm.info.attributes
          p.1 p.2) ∧
    (∃ issuer leaf, E0.decodeCert st0.crt = .ok issuer ∧
      ([issuer0, leafTwo] : List Certificate) = [issuer, leaf] ∧
      leaf.tbs.issuerUniqueId = issuer.tbs.subjectUniqueId ∧
      leaf.tbs.subjectUniqueId = none) :=
  ⟨c10_multi_attr_accumulation.1 E0 crKvm.info true crKvm.info.attributes
      crKvm.info.attributes false [],
    c10_multi_attr_accumulation.2.2 E0 PKCS10 [4] st0 [issuer0, leafTwo]
      st0' rfl⟩

end Steward
